import Mathlib

/-!
Verification of the collector-common-api library: a shallow embedding of its
data-validation utilities, retrying HTTP client, cloud upload fan-out and
upload-descriptor validation, with theorems settling the specification's
claims about them.
-/

set_option maxHeartbeats 1000000

namespace CollectorCommon

/-! ## JavaScript value model

JavaScript runtime values as consumed by `isValidData` (src/src/utils/util.ts)
and by the zod schema machinery. Numbers are represented only by the
information the code inspects: whether `Number.isFinite` holds, and the value
itself for finite numbers. -/

inductive JSValue where
  | undef
  | null
  | str (s : String)
  | numFinite (n : Int)
  | numNonFinite
  | bool (b : Bool)
  | arr (elems : List JSValue)
  | obj (fields : List (String × JSValue))
deriving Repr

/-- Model of `hasKeys` (src/src/utils/util.ts lines 19-26) restricted to the
object case: a non-null, non-array object passes iff it has at least one key.
All non-object values (handled by `typeof` before the call site reaches
`hasKeys` inside `isValidData`) are false. -/
def hasKeys : JSValue → Bool
  | .obj fields => decide (0 < fields.length)
  | _ => false

/-- Model of JavaScript `String.prototype.trim`: strip leading and trailing
whitespace characters. -/
def jsTrim (s : String) : String :=
  String.mk (((s.data.dropWhile Char.isWhitespace).reverse.dropWhile Char.isWhitespace).reverse)

mutual

/-- Model of `isValidData` (src/src/utils/util.ts lines 34-51):
`undefined`/`null` are invalid; strings are valid iff non-blank after trim;
numbers are valid iff finite; other primitives (booleans) fall to the
`default: return true` branch; arrays are valid iff some element is;
objects are valid iff `hasKeys` holds and some value is valid. -/
def isValidData : JSValue → Bool
  | .undef => false
  | .null => false
  | .str s => decide (0 < (jsTrim s).length)
  | .numFinite _ => true
  | .numNonFinite => false
  | .bool _ => true
  | .arr elems => anyValidData elems
  | .obj fields => hasKeys (.obj fields) && anyValidDataValues fields

/-- Model of `data.some(datum => isValidData(datum))` over an array. -/
def anyValidData : List JSValue → Bool
  | [] => false
  | x :: xs => isValidData x || anyValidData xs

/-- Model of `Object.values(data).some(datum => isValidData(datum))`. -/
def anyValidDataValues : List (String × JSValue) → Bool
  | [] => false
  | f :: fs => isValidData f.2 || anyValidDataValues fs

end

/-! ## Export pipeline skip predicate

In `exportData` (src/src/utils/data.utils.ts lines 58-64) each entry of the
dataset is skipped with a warning when `!isValidData(data)`, and otherwise
serialized and uploaded (production) or written to a file. We model which
data-source names are uploaded and which are skipped. -/

/-- Names of dataset entries that `exportData` forwards to the uploaders
(production path) because `isValidData` holds of their value. -/
def exportDataUploads (theData : List (String × JSValue)) : List String :=
  (theData.filter (fun e => isValidData e.2)).map Prod.fst

/-- Names of dataset entries that `exportData` skips with a
"returned no data" warning because `isValidData` fails on their value. -/
def exportDataSkipped (theData : List (String × JSValue)) : List String :=
  (theData.filter (fun e => !isValidData e.2)).map Prod.fst

/-! ## Date formatting and upload filename

Model of `formatDate` (src/src/utils/util.ts lines 62-73) and of the
auto-generated S3 object filename
(src/src/cloud/clients/aws3UploadClient.ts line 138). -/

/-- Model of a JavaScript `Date` through the accessors `formatDate` uses.
`monthIndex` is the zero-based `getMonth()`; `date` is `getDate()`. -/
structure JSDate where
  fullYear : Nat
  monthIndex : Nat
  date : Nat
  hours : Nat
  minutes : Nat
  seconds : Nat

/-- Model of `pad(n) = n.toString().padStart(2, "0")`: left-pad the decimal
representation with zeros to length two. -/
def padTwo (n : Nat) : String :=
  String.mk (List.replicate (2 - (toString n).length) '0') ++ toString n

/-- Model of `formatDate` (src/src/utils/util.ts lines 62-73). Note the
source computes `fullDate = pad(d.getDate()) + "_"` and then interpolates
`` `${fullYear}-${month}-${fullDate}_${hours}:${minutes}:${seconds}` ``,
so the day is followed by two underscore characters. -/
def formatDate (d : JSDate) : String :=
  let fullYear := toString d.fullYear
  let month := padTwo (d.monthIndex + 1)
  let fullDate := padTwo d.date ++ "_"
  let hours := padTwo d.hours
  let minutes := padTwo d.minutes
  let seconds := padTwo d.seconds
  fullYear ++ "-" ++ month ++ "-" ++ fullDate ++ "_" ++ hours ++ ":" ++ minutes ++ ":" ++ seconds

/-- Model of the auto-generated upload filename in `AWS3UploadClient.upload`
(src/src/cloud/clients/aws3UploadClient.ts line 138):
`` filename ?? `${serviceName}-${dataSourceName}-${timeToday}.json` ``. -/
def aws3GeneratedFilename (serviceName dataSourceName timeToday : String) : String :=
  serviceName ++ "-" ++ dataSourceName ++ "-" ++ timeToday ++ ".json"

/-! ## Retrying HTTP client

Model of `ApiCollectorClient.requestWithRetry`, `request` and
`requestAndParse` (src/src/api/apiCollectorClient.ts lines 97-207), and of
the legacy `AbstractApiClient.request` / `requestAndParse`
(src/api-client/api-client.ts lines 45-103).

The axios transport is kept abstract: `outcomes i` is what `await
axios(config)` does on the i-th attempt (1-indexed) - either resolve with a
response, or reject with an error whose `err.response?.status` is the given
optional status (`none` models a network-level failure with no response). -/

/-- Model of an axios response as inspected by the client code. -/
structure HttpResponse where
  status : Nat
  statusText : String
  data : JSValue

/-- Outcome of a single `await axios(config)` call: fulfilled with a
response, or rejected with an error carrying `err.response?.status`. -/
inductive AttemptOutcome where
  | ok (resp : HttpResponse)
  | err (status : Option Nat)

/-- Result of the retry loop. `threw i s` means the error object thrown by
attempt `i` (whose optional status is `s`) propagates to the caller as-is;
`threwUndefined` is the `throw lastError` fall-through with `lastError`
never assigned (reachable only when `retries = 0`). -/
inductive RetryResult where
  | resolved (resp : HttpResponse)
  | threw (attemptIdx : Nat) (status : Option Nat)
  | threwUndefined

/-- Observable behaviour of one `requestWithRetry` call: its result, the
list of backoff delays slept (in order), and how many attempts ran. -/
structure RetryTrace where
  result : RetryResult
  delays : List Nat
  attemptsMade : Nat

/-- Model of the truthiness test `(status && status < 500 && status !== 429)`
in the catch block (line 122): a present, non-zero status below 500 and
different from 429 is a non-retryable client error. -/
def nonRetryableClientStatus : Option Nat → Bool
  | none => false
  | some s => decide (s ≠ 0) && decide (s < 500) && decide (s ≠ 429)

/-- Loop body of `requestWithRetry` (lines 104-130). `attempt` is the loop
counter; `fuel` is the number of iterations the guard `attempt <= retries`
still allows, so the top-level call uses `fuel = retries`; `lastError`
carries the `(attempt, status)` of the most recent retried failure, matching
the `lastError` local. -/
def retryLoop (outcomes : Nat → AttemptOutcome) (retries baseDelay : Nat) :
    Nat → Nat → Option (Nat × Option Nat) → RetryTrace
  | _, 0, lastError =>
    { result := match lastError with
        | none => .threwUndefined
        | some (i, s) => .threw i s
      delays := []
      attemptsMade := 0 }
  | attempt, fuel + 1, _ =>
    match outcomes attempt with
    | .ok resp => { result := .resolved resp, delays := [], attemptsMade := 1 }
    | .err status =>
      if status = some 400 ∨ status = some 404 then
        { result := .threw attempt status, delays := [], attemptsMade := 1 }
      else if attempt = retries ∨ nonRetryableClientStatus status then
        { result := .threw attempt status, delays := [], attemptsMade := 1 }
      else
        let rest := retryLoop outcomes retries baseDelay (attempt + 1) fuel (some (attempt, status))
        { result := rest.result
          delays := baseDelay * 2 ^ attempt :: rest.delays
          attemptsMade := rest.attemptsMade + 1 }

/-- Model of `requestWithRetry(config, retries, delayMs)`: run the loop from
`attempt = 1` with `lastError` unassigned. -/
def requestWithRetry (outcomes : Nat → AttemptOutcome) (retries baseDelay : Nat) : RetryTrace :=
  retryLoop outcomes retries baseDelay 1 retries none

/-- Errors observable from `request` / `requestAndParse`.
`transport i s` is the unwrapped axios error of attempt `i` (status `s`);
`invalidResponse` is an `InvalidAPIResponseError(route, data)`, whose `data`
payload we model as the list of description strings it carries;
`zodThrow` is a raw `ZodError` escaping from a throwing `schema.parse`;
`undefinedThrow` is the `throw lastError` with `lastError` unassigned. -/
inductive RequestError where
  | transport (attemptIdx : Nat) (status : Option Nat)
  | invalidResponse (endpoint : String) (descriptions : List String)
  | zodThrow (issues : List String)
  | undefinedThrow

/-- Model of `ApiCollectorClient.request` (lines 148-183): run the retry
loop; propagate its thrown error unchanged; on a resolved response return it
when the status is in [200,300) and otherwise throw
`InvalidAPIResponseError(endpoint, "HTTP status - statusText")`. The
`if (!response) return null` guard is modelled by the `Option` in the ok
type; no resolved axios promise yields a falsy response, so no branch
produces `Except.ok none`. -/
def collectorRequest (endpoint : String) (outcomes : Nat → AttemptOutcome)
    (retries baseDelay : Nat) : Except RequestError (Option HttpResponse) :=
  match (requestWithRetry outcomes retries baseDelay).result with
  | .threw i s => .error (.transport i s)
  | .threwUndefined => .error .undefinedThrow
  | .resolved resp =>
    if 200 ≤ resp.status ∧ resp.status < 300 then
      .ok (some resp)
    else
      .error (.invalidResponse endpoint ["HTTP " ++ toString resp.status ++ " - " ++ resp.statusText])

/-- Model of a zod schema as its `safeParse`: either the parsed value or the
list of validation issues. `schema.parse` on the same schema throws the
issues as a `ZodError`. -/
def Schema : Type := JSValue → Except (List String) JSValue

/-- The axios response object itself as a JavaScript value, since
`ApiCollectorClient.requestAndParse` feeds the whole response (not
`response.data`) to the schema. -/
def responseToJSValue (r : HttpResponse) : JSValue :=
  .obj [("status", .numFinite (Int.ofNat r.status)), ("statusText", .str r.statusText),
        ("data", r.data)]

/-- Model of `ApiCollectorClient.requestAndParse` (lines 199-207):
`const data = await this.request(...); return schema.parse(data);` - a
throwing parse whose `ZodError` escapes unwrapped. -/
def collectorRequestAndParse (endpoint : String) (outcomes : Nat → AttemptOutcome)
    (retries baseDelay : Nat) (schema : Schema) : Except RequestError JSValue :=
  match collectorRequest endpoint outcomes retries baseDelay with
  | .error e => .error e
  | .ok none =>
    match schema .null with
    | .ok v => .ok v
    | .error issues => .error (.zodThrow issues)
  | .ok (some resp) =>
    match schema (responseToJSValue resp) with
    | .ok v => .ok v
    | .error issues => .error (.zodThrow issues)

/-- Model of the legacy `AbstractApiClient.request`
(src/api-client/api-client.ts lines 45-84): a single `axios.request` call
inside `try`/`catch`; on fulfilment resolve with `response.data`, and on any
rejection (including every non-2xx response, which default axios validation
turns into a thrown `AxiosError`) log and `return null`. -/
def apiClientRequest (outcome : AttemptOutcome) : Except RequestError (Option JSValue) :=
  match outcome with
  | .ok resp => .ok (some resp.data)
  | .err _ => .ok none

/-- Model of the legacy `AbstractApiClient.requestAndParse` (lines 89-103):
`schema.safeParse(data)`; on failure throw
`InvalidAPIResponseError(endpoint, JSON.stringify(parsed.error.issues))`
carrying every collected issue. -/
def apiClientRequestAndParse (endpoint : String) (outcome : AttemptOutcome)
    (schema : Schema) : Except RequestError JSValue :=
  match apiClientRequest outcome with
  | .error e => .error e
  | .ok d =>
    match schema (d.getD .null) with
    | .ok parsed => .ok parsed
    | .error issues => .error (.invalidResponse endpoint issues)

/-- Classification of a failed attempt the claims call retryable: no
response status (network-level error), a 5xx status, or HTTP 429. -/
def isRetryableFailure : Option Nat → Bool
  | none => true
  | some s => decide (500 ≤ s) || decide (s = 429)

/-! ## Cloud upload fan-out

Model of `CloudUploadClientCollection.upload`
(src/src/cloud/cloudUploadClientCollection.ts lines 98-105):
`Promise.all(clients.map(client => client.uploadFile(data, opts).catch(e =>
Logger.error(...))))`. Each managed client's `uploadFile` promise is
modelled by its settlement for the given payload, the trailing `.catch`
turns a rejection into a fulfilled branch that logs, and `Promise.all` is
the standard short-circuiting join. -/

/-- One managed upload client: its diagnostic `name` and the settlement of
`uploadFile(data, opts)` as a function of the payload (`Except.error msg`
models a rejection with an error whose `.message` is `msg`). -/
structure UploadClient where
  name : String
  uploadResult : String → Except String Unit

/-- Settled state of one per-client branch after the `.catch` handler:
either the upload fulfilled, or it rejected and the collection logged
`Failed to upload to NAME - MESSAGE`. -/
inductive SettledOutcome where
  | fulfilled
  | loggedFailure (logLine : String)
deriving DecidableEq, Repr

/-- Value of `client.uploadFile(data, opts).catch(e => Logger.error(...))`:
a branch that always fulfils, recording whether the underlying upload
succeeded or was caught and logged. -/
def settleOne (payload : String) (c : UploadClient) : SettledOutcome :=
  match c.uploadResult payload with
  | .ok _ => .fulfilled
  | .error msg => .loggedFailure ("Failed to upload to " ++ c.name ++ " - " ++ msg)

/-- Model of `Promise.all`: fulfils with the list of fulfilment values, or
rejects with the first rejection. -/
def promiseAll {ε α : Type} : List (Except ε α) → Except ε (List α)
  | [] => .ok []
  | x :: xs =>
    match x with
    | .error e => .error e
    | .ok a =>
      match promiseAll xs with
      | .error e => .error e
      | .ok rest => .ok (a :: rest)

/-- Model of `CloudUploadClientCollection.upload`: dispatch `uploadFile` once
to every managed client (the eager `clients.map`), attach the logging
`.catch` to each branch, and join with `Promise.all`. -/
def collectionUpload (clients : List UploadClient) (payload : String) :
    Except String (List SettledOutcome) :=
  promiseAll (clients.map (fun c => Except.ok (settleOne payload c)))

/-! ## Upload descriptor validation

Model of the `zCloudUploadClientOpts` zod schema (src/unnamed/part_015 lines
144-179). The base object schema takes optional strings for every field
except `serviceLocation`, which is a required `z.enum(["site","global"])`
(ServiceLocation, src/src/config/types.ts line 25); the `superRefine` step
then runs only when the base parse succeeded. JavaScript truthiness tests
(`if (data.filePath)`, `!data.serviceName`, ...) treat a missing field and
an empty string alike as falsy. -/

/-- Raw input to `safeParse`: every field optionally present. -/
structure RawUploadOpts where
  filePath : Option String
  serviceLocation : Option String
  siteName : Option String
  serviceName : Option String
  dataSourceName : Option String
  filename : Option String

/-- Descriptor after the base object parse accepted it: `serviceLocation`
narrowed to one of the enum values. -/
structure ParsedUploadOpts where
  filePath : Option String
  serviceLocation : String
  siteName : Option String
  serviceName : Option String
  dataSourceName : Option String
  filename : Option String
deriving Repr

/-- JavaScript truthiness of an optional string field: absent and `""` are
falsy. -/
def truthyStr : Option String → Bool
  | none => false
  | some s => decide (s ≠ "")

/-- Base parse of the required `serviceLocation: z.enum(ServiceLocation)`
field: absent input yields a `Required` invalid-type issue, a value outside
`{"site","global"}` an invalid-enum issue. -/
def parseServiceLocation : Option String → Except String String
  | none => .error "serviceLocation: Required"
  | some s =>
    if s = "site" ∨ s = "global" then .ok s
    else .error "serviceLocation: Invalid enum value"

/-- Issues added by the `superRefine` callback (part_015 lines 152-179):
nothing when `filePath` is truthy; otherwise one issue per missing
`serviceName` / `dataSourceName`, plus either a missing-`serviceLocation`
issue or - when the location is `"site"` without a truthy `siteName` - a
missing-`siteName` issue. -/
def refineIssues (o : ParsedUploadOpts) : List String :=
  if truthyStr o.filePath then []
  else
    (if truthyStr o.serviceName then []
     else ["serviceName must be specified if not using absolute file pathing"]) ++
    (if truthyStr o.dataSourceName then []
     else ["dataSourceName must be specified if not using absolute file pathing"]) ++
    (if o.serviceLocation = "" then
       ["serviceLocation must be specified if not using absolute file pathing"]
     else if o.serviceLocation = "site" ∧ ¬ truthyStr o.siteName then
       ["siteName must be specified if not using absolute file pathing"]
     else [])

/-- Result of `zCloudUploadClientOpts.safeParse`. -/
inductive UploadOptsValidation where
  | success (opts : ParsedUploadOpts)
  | failure (issues : List String)
deriving Repr

/-- Model of `zCloudUploadClientOpts.safeParse` (and thus of
`CloudUploadClient.safeValidateUploadOpts`): base object parse first (the
required enum field), then the `superRefine` issues. -/
def safeParseUploadOpts (raw : RawUploadOpts) : UploadOptsValidation :=
  match parseServiceLocation raw.serviceLocation with
  | .error issue => .failure [issue]
  | .ok loc =>
    let parsed : ParsedUploadOpts :=
      { filePath := raw.filePath, serviceLocation := loc, siteName := raw.siteName
        serviceName := raw.serviceName, dataSourceName := raw.dataSourceName
        filename := raw.filename }
    match refineIssues parsed with
    | [] => .success parsed
    | issues => .failure issues

/-! ## Retry loop lemmas -/

/-- A retryable failure (no status, 5xx, or 429) never triggers the
fail-fast branch for 400/404. -/
theorem isRetryableFailure_not_failfast {s : Option Nat}
    (h : isRetryableFailure s = true) : ¬ (s = some 400 ∨ s = some 404) := by
  cases s with
  | none => rintro (h400 | h404) <;> simp_all
  | some v =>
    simp only [isRetryableFailure, Bool.or_eq_true, decide_eq_true_eq] at h
    rintro (h400 | h404) <;> (injection (by assumption : some v = _) with hv) <;> omega

/-- A retryable failure never satisfies the non-retryable client-error test
`(status && status < 500 && status !== 429)`. -/
theorem isRetryableFailure_not_clientError {s : Option Nat}
    (h : isRetryableFailure s = true) : nonRetryableClientStatus s = false := by
  cases s with
  | none => rfl
  | some v =>
    simp only [isRetryableFailure, Bool.or_eq_true, decide_eq_true_eq] at h
    simp only [nonRetryableClientStatus, Bool.and_eq_false_iff, decide_eq_false_iff_not,
      Decidable.not_not]
    omega

/-- The loop makes at most `fuel` attempts, whatever the transport does. -/
theorem retryLoop_attemptsMade_le (outcomes : Nat → AttemptOutcome) (retries baseDelay : Nat) :
    ∀ (fuel attempt : Nat) (lastError : Option (Nat × Option Nat)),
      (retryLoop outcomes retries baseDelay attempt fuel lastError).attemptsMade ≤ fuel := by
  intro fuel
  induction fuel with
  | zero => intro attempt lastError; simp [retryLoop]
  | succ f ih =>
    intro attempt lastError
    rcases houtcome : outcomes attempt with resp | status
    · simp [retryLoop, houtcome]
    · by_cases h1 : status = some 400 ∨ status = some 404
      · simp only [retryLoop, houtcome, if_pos h1]
        omega
      · by_cases h2 : attempt = retries ∨ nonRetryableClientStatus status = true
        · simp only [retryLoop, houtcome, if_neg h1, if_pos h2]
          omega
        · simp only [retryLoop, houtcome, if_neg h1, if_neg h2]
          exact Nat.succ_le_succ (ih (attempt + 1) (some (attempt, status)))

/-- Appending one more backoff delay in front shifts the exponent window of
the delay schedule. -/
theorem backoff_delays_cons (baseDelay a m : Nat) :
    baseDelay * 2 ^ a :: (List.range m).map (fun k => baseDelay * 2 ^ (a + 1 + k)) =
      (List.range (m + 1)).map (fun k => baseDelay * 2 ^ (a + k)) := by
  have hfun : ((fun k => baseDelay * 2 ^ (a + k)) ∘ Nat.succ) =
      (fun k => baseDelay * 2 ^ (a + 1 + k)) := by
    funext k
    simp only [Function.comp_apply, Nat.succ_eq_add_one]
    have hk : a + (k + 1) = a + 1 + k := by omega
    rw [hk]
  rw [List.range_succ_eq_map, List.map_cons, List.map_map, hfun]
  simp

/-- One unfolding step of the loop when the current attempt fails and one of
the two throwing guards fires: the error is rethrown immediately. -/
theorem retryLoop_throw (outcomes : Nat → AttemptOutcome) (retries baseDelay attempt fuel : Nat)
    (lastError : Option (Nat × Option Nat)) (status : Option Nat)
    (houtcome : outcomes attempt = .err status)
    (h2 : status = some 400 ∨ status = some 404 ∨ attempt = retries ∨
      nonRetryableClientStatus status = true) :
    retryLoop outcomes retries baseDelay attempt (fuel + 1) lastError =
      { result := .threw attempt status, delays := [], attemptsMade := 1 } := by
  by_cases h1 : status = some 400 ∨ status = some 404
  · simp only [retryLoop, houtcome, if_pos h1]
  · have h2' : attempt = retries ∨ nonRetryableClientStatus status = true := by tauto
    simp only [retryLoop, houtcome, if_neg h1, if_pos h2']

/-- One unfolding step of the loop when the current attempt fails retryably
and fuel remains: sleep `baseDelay * 2^attempt` and continue. -/
theorem retryLoop_retry (outcomes : Nat → AttemptOutcome) (retries baseDelay attempt fuel : Nat)
    (lastError : Option (Nat × Option Nat)) (status : Option Nat)
    (houtcome : outcomes attempt = .err status)
    (h1 : ¬ (status = some 400 ∨ status = some 404))
    (h2 : ¬ (attempt = retries ∨ nonRetryableClientStatus status = true)) :
    retryLoop outcomes retries baseDelay attempt (fuel + 1) lastError =
      { result :=
          (retryLoop outcomes retries baseDelay (attempt + 1) fuel (some (attempt, status))).result
        delays := baseDelay * 2 ^ attempt ::
          (retryLoop outcomes retries baseDelay (attempt + 1) fuel (some (attempt, status))).delays
        attemptsMade :=
          (retryLoop outcomes retries baseDelay (attempt + 1) fuel
            (some (attempt, status))).attemptsMade + 1 } := by
  simp only [retryLoop, houtcome, if_neg h1, if_neg h2]

/-- Behaviour of the loop when every remaining attempt fails retryably:
the loop uses all its fuel, sleeps `baseDelay * 2^i` after the failure of
each attempt `i` except the last, and rethrows the last attempt's error. -/
theorem retryLoop_allRetryable (outcomes : Nat → AttemptOutcome) (retries baseDelay : Nat) :
    ∀ (fuel attempt : Nat) (lastError : Option (Nat × Option Nat)),
      1 ≤ fuel → attempt + fuel = retries + 1 →
      (∀ i, attempt ≤ i → i ≤ retries →
        ∃ s, outcomes i = .err s ∧ isRetryableFailure s = true) →
      ∃ sR, outcomes retries = .err sR ∧
        retryLoop outcomes retries baseDelay attempt fuel lastError =
          { result := .threw retries sR
            delays := (List.range (fuel - 1)).map (fun k => baseDelay * 2 ^ (attempt + k))
            attemptsMade := fuel } := by
  intro fuel
  induction fuel with
  | zero => intro attempt lastError h1; omega
  | succ f ih =>
    intro attempt lastError _ hsum h
    have hattempt_le : attempt ≤ retries := by omega
    obtain ⟨s, hout, hs⟩ := h attempt le_rfl hattempt_le
    have h400 := isRetryableFailure_not_failfast hs
    have hclient := isRetryableFailure_not_clientError hs
    cases f with
    | zero =>
      have hat : attempt = retries := by omega
      refine ⟨s, by rw [← hat]; exact hout, ?_⟩
      rw [retryLoop_throw outcomes retries baseDelay attempt 0 lastError s hout
        (Or.inr (Or.inr (Or.inl hat)))]
      simp [hat]
    | succ f' =>
      have hcond : ¬ (attempt = retries ∨ nonRetryableClientStatus s = true) := by
        rw [hclient]
        simp only [Bool.false_eq_true, or_false]
        omega
      obtain ⟨sR, houtR, heq⟩ := ih (attempt + 1) (some (attempt, s)) (by omega) (by omega)
        (fun i hi1 hi2 => h i (by omega) hi2)
      refine ⟨sR, houtR, ?_⟩
      rw [retryLoop_retry outcomes retries baseDelay attempt (f' + 1) lastError s hout h400 hcond,
        heq]
      simp only [Nat.add_sub_cancel, RetryTrace.mk.injEq]
      exact ⟨trivial, backoff_delays_cons baseDelay attempt f', trivial⟩

/-! ## Claim theorems: retry behaviour -/

/-- C1. For a request whose attempts all fail retryably (no status, 5xx, or
429), `requestWithRetry` never makes more than `retries` attempts in total
(so at most `maxAttempts - 1` additional attempts beyond the first), it
makes exactly `retries` of them when every attempt keeps failing retryably,
and the recorded backoff schedule is
`[baseDelay * 2^1, ..., baseDelay * 2^(retries-1)]` - that is, the delay
inserted before the n-th additional attempt is `baseDelay * 2^n`. -/
theorem retry_backoff_schedule (outcomes : Nat → AttemptOutcome) (retries baseDelay : Nat)
    (h : ∀ i, 1 ≤ i → i ≤ retries → ∃ s, outcomes i = .err s ∧ isRetryableFailure s = true) :
    (∀ outs : Nat → AttemptOutcome, (requestWithRetry outs retries baseDelay).attemptsMade ≤ retries) ∧
    (requestWithRetry outcomes retries baseDelay).attemptsMade = retries ∧
    (requestWithRetry outcomes retries baseDelay).delays =
      (List.range (retries - 1)).map (fun n => baseDelay * 2 ^ (n + 1)) := by
  refine ⟨fun outs => retryLoop_attemptsMade_le outs retries baseDelay retries 1 none, ?_⟩
  cases retries with
  | zero => constructor <;> rfl
  | succ r =>
    obtain ⟨sR, _, heq⟩ := retryLoop_allRetryable outcomes (r + 1) baseDelay (r + 1) 1 none
      (by omega) (by omega) h
    rw [requestWithRetry, heq]
    refine ⟨rfl, ?_⟩
    simp only [Nat.add_sub_cancel]
    apply List.map_congr_left
    intro k _
    have hk : 1 + k = k + 1 := by omega
    rw [hk]

/-- Closed witness for `retry_backoff_schedule`: three consecutive 503
failures with `retries = 3`, `baseDelay = 100` yield exactly three attempts
and the delays `[100 * 2^1, 100 * 2^2] = [200, 400]`. -/
theorem retry_backoff_schedule_witness :
    (requestWithRetry (fun _ => .err (some 503)) 3 100).attemptsMade = 3 ∧
    (requestWithRetry (fun _ => .err (some 503)) 3 100).delays = [200, 400] := by
  have h := retry_backoff_schedule (fun _ => .err (some 503)) 3 100
    (fun i _ _ => ⟨some 503, rfl, by decide⟩)
  refine ⟨h.2.1, ?_⟩
  rw [h.2.2]
  decide

/-- C2. A first attempt failing with a present status below 500 other than
429 (e.g. 400, 404, 401, 403) makes `requestWithRetry` rethrow immediately:
exactly one attempt, no delays, and `request` propagates that attempt's
error - regardless of the configured maximum attempts (any `retries ≥ 1`). -/
theorem request_failfast_client_error (outcomes : Nat → AttemptOutcome)
    (endpoint : String) (retries baseDelay s : Nat)
    (hout : outcomes 1 = .err (some s))
    (hs0 : s ≠ 0) (hs5 : s < 500) (hs429 : s ≠ 429) (hr : 1 ≤ retries) :
    requestWithRetry outcomes retries baseDelay =
      { result := .threw 1 (some s), delays := [], attemptsMade := 1 } ∧
    collectorRequest endpoint outcomes retries baseDelay = .error (.transport 1 (some s)) := by
  obtain ⟨f, hf⟩ : ∃ f, retries = f + 1 := ⟨retries - 1, by omega⟩
  have hthrow : requestWithRetry outcomes retries baseDelay =
      { result := .threw 1 (some s), delays := [], attemptsMade := 1 } := by
    rw [requestWithRetry, hf]
    refine retryLoop_throw outcomes (f + 1) baseDelay 1 f none (some s) hout ?_
    refine Or.inr (Or.inr (Or.inr ?_))
    simp only [nonRetryableClientStatus, Bool.and_eq_true, decide_eq_true_eq]
    exact ⟨⟨hs0, hs5⟩, hs429⟩
  refine ⟨hthrow, ?_⟩
  rw [collectorRequest, hthrow]

/-- Closed witness for `request_failfast_client_error`: a 404 on the first
attempt with ten configured attempts fails after one attempt with no
backoff and surfaces the underlying 404 error. -/
theorem request_failfast_client_error_witness :
    requestWithRetry (fun _ => .err (some 404)) 10 1000 =
      { result := .threw 1 (some 404), delays := [], attemptsMade := 1 } ∧
    collectorRequest "nodes" (fun _ => .err (some 404)) 10 1000 =
      .error (.transport 1 (some 404)) :=
  request_failfast_client_error (fun _ => .err (some 404)) "nodes" 10 1000 404 rfl
    (by decide) (by decide) (by decide) (by decide)

/-- C3. When every attempt fails retryably and the loop exhausts all
`retries` attempts, the error surfaced by `requestWithRetry`, by `request`
and by `requestAndParse` is the last attempt's own transport error (the
`transport` constructor carries the raw axios error of that attempt),
not an `InvalidAPIResponseError` or any other wrapper. -/
theorem request_exhaustion_unwrapped (endpoint : String) (outcomes : Nat → AttemptOutcome)
    (retries baseDelay : Nat) (schema : Schema)
    (h : ∀ i, 1 ≤ i → i ≤ retries → ∃ s, outcomes i = .err s ∧ isRetryableFailure s = true)
    (hr : 1 ≤ retries) :
    ∃ sR, outcomes retries = .err sR ∧
      (requestWithRetry outcomes retries baseDelay).result = .threw retries sR ∧
      collectorRequest endpoint outcomes retries baseDelay = .error (.transport retries sR) ∧
      collectorRequestAndParse endpoint outcomes retries baseDelay schema =
        .error (.transport retries sR) := by
  obtain ⟨sR, houtR, heq⟩ := retryLoop_allRetryable outcomes retries baseDelay retries 1 none
    hr (by omega) h
  have hres : (requestWithRetry outcomes retries baseDelay).result = .threw retries sR := by
    rw [requestWithRetry, heq]
  have hreq : collectorRequest endpoint outcomes retries baseDelay =
      .error (.transport retries sR) := by
    rw [collectorRequest, hres]
  refine ⟨sR, houtR, hres, hreq, ?_⟩
  rw [collectorRequestAndParse, hreq]

/-- Closed witness for `request_exhaustion_unwrapped`: two consecutive
network-level failures (no status) with `retries = 2` surface the second
attempt's own error from the loop, from `request`, and from
`requestAndParse`. -/
theorem request_exhaustion_unwrapped_witness :
    ∃ sR, (fun _ : Nat => AttemptOutcome.err none) 2 = .err sR ∧
      (requestWithRetry (fun _ => .err none) 2 500).result = .threw 2 sR ∧
      collectorRequest "cluster/status" (fun _ => .err none) 2 500 =
        .error (.transport 2 sR) ∧
      collectorRequestAndParse "cluster/status" (fun _ => .err none) 2 500 (fun v => .ok v) =
        .error (.transport 2 sR) :=
  request_exhaustion_unwrapped "cluster/status" (fun _ => .err none) 2 500 (fun v => .ok v)
    (fun _ _ _ => ⟨none, rfl, rfl⟩) (by decide)

/-! ## Claim theorems: response validation -/

/-- C4 counterexample. In the legacy `AbstractApiClient.request`
(src/api-client/api-client.ts lines 69-84, one of the claim's two cited
sources), a request whose final status is 404 - which default axios
validation surfaces as a rejected promise carrying that status - is caught,
logged, and resolved as `null`: the call neither raises an
`InvalidResponseError` nor any other error, contradicting the claim that
`request` never returns a null result instead of raising. -/
theorem apiClient_request_resolves_null_counterexample :
    apiClientRequest (.err (some 404)) = .ok none := rfl

/-- C4 amended. In the retrying client revision
(`ApiCollectorClient.request`), every response whose final status lies
outside [200,300) raises an `InvalidAPIResponseError` carrying the endpoint
and the `HTTP status - statusText` description; that revision never
resolves with such a response and never returns a null result instead of
raising. -/
theorem request_invalid_status_raises (endpoint : String) (outcomes : Nat → AttemptOutcome)
    (retries baseDelay : Nat) (resp : HttpResponse)
    (hres : (requestWithRetry outcomes retries baseDelay).result = .resolved resp)
    (hbad : ¬ (200 ≤ resp.status ∧ resp.status < 300)) :
    collectorRequest endpoint outcomes retries baseDelay =
      .error (.invalidResponse endpoint
        ["HTTP " ++ toString resp.status ++ " - " ++ resp.statusText]) ∧
    ∀ (outs : Nat → AttemptOutcome) (rt bd : Nat),
      collectorRequest endpoint outs rt bd ≠ .ok none := by
  constructor
  · rw [collectorRequest, hres]
    simp only [if_neg hbad]
  · intro outs rt bd
    rw [collectorRequest]
    cases (requestWithRetry outs rt bd).result with
    | resolved r =>
      by_cases h2 : 200 ≤ r.status ∧ r.status < 300
      · simp [h2]
      · simp [h2]
    | threw i s => simp
    | threwUndefined => simp

/-- Closed witness for `request_invalid_status_raises`: a resolved 404
response makes `request` raise `InvalidAPIResponseError("nodes",
"HTTP 404 - Not Found")`. -/
theorem request_invalid_status_raises_witness :
    collectorRequest "nodes" (fun _ => .ok ⟨404, "Not Found", .null⟩) 10 1000 =
      .error (.invalidResponse "nodes" ["HTTP 404 - Not Found"]) ∧
    ∀ (outs : Nat → AttemptOutcome) (rt bd : Nat),
      collectorRequest "nodes" outs rt bd ≠ .ok none := by
  have h := request_invalid_status_raises "nodes" (fun _ => .ok ⟨404, "Not Found", .null⟩)
    10 1000 ⟨404, "Not Found", .null⟩ rfl (by simp)
  exact h

/-- C5 counterexample. In `ApiCollectorClient.requestAndParse`
(src/src/api/apiCollectorClient.ts lines 199-207, one of the claim's two
cited sources), a payload failing schema validation with two issues makes
the call propagate the raw `ZodError` thrown by `schema.parse` - not an
`InvalidResponseError` carrying the endpoint - because that revision uses
the throwing parse. -/
theorem collector_requestAndParse_zodthrow_counterexample :
    collectorRequestAndParse "items" (fun _ => .ok ⟨200, "OK", .null⟩) 10 1000
        (fun _ => .error ["issue one", "issue two"]) =
      .error (.zodThrow ["issue one", "issue two"]) ∧
    collectorRequestAndParse "items" (fun _ => .ok ⟨200, "OK", .null⟩) 10 1000
        (fun _ => .error ["issue one", "issue two"]) ≠
      .error (.invalidResponse "items" ["issue one", "issue two"]) := by
  constructor
  · rfl
  · intro hcontra
    rw [show collectorRequestAndParse "items" (fun _ => .ok ⟨200, "OK", .null⟩) 10 1000
        (fun _ => .error ["issue one", "issue two"]) =
        .error (.zodThrow ["issue one", "issue two"]) from rfl] at hcontra
    cases hcontra

/-- C5 amended. In the legacy `AbstractApiClient.requestAndParse` revision,
a payload failing schema validation raises an `InvalidAPIResponseError`
carrying the endpoint and the full list of collected validation issues,
obtained through the non-throwing `safeParse`. -/
theorem requestAndParse_collects_all_issues (endpoint : String) (resp : HttpResponse)
    (schema : Schema) (issues : List String)
    (hfail : schema resp.data = .error issues) :
    apiClientRequestAndParse endpoint (.ok resp) schema =
      .error (.invalidResponse endpoint issues) := by
  rw [apiClientRequestAndParse, apiClientRequest]
  simp only [Option.getD_some, hfail]

/-- Closed witness for `requestAndParse_collects_all_issues`: a schema
rejecting the payload with two issues produces an
`InvalidAPIResponseError("items", [issue1, issue2])`. -/
theorem requestAndParse_collects_all_issues_witness :
    apiClientRequestAndParse "items" (.ok ⟨200, "OK", .obj []⟩)
        (fun _ => .error ["expected string", "expected number"]) =
      .error (.invalidResponse "items" ["expected string", "expected number"]) :=
  requestAndParse_collects_all_issues "items" ⟨200, "OK", .obj []⟩
    (fun _ => .error ["expected string", "expected number"])
    ["expected string", "expected number"] rfl

/-! ## Claim theorems: data validation predicate -/

/-- C6. The `isValidData` predicate on the claim's example inputs:
the empty object is invalid; an object with a numeric field is valid; the
empty array is invalid; an array of null and an empty object is invalid; an
array containing an object with a numeric field is valid; a nested object
whose leaves are all empty is invalid; a nested object with one numeric
leaf - the number 0 included - is valid; the empty and the blank string are
invalid; a non-finite number is invalid. -/
theorem isValidData_meaningful_data :
    isValidData (.obj []) = false ∧
    isValidData (.obj [("a", .numFinite 1)]) = true ∧
    isValidData (.arr []) = false ∧
    isValidData (.arr [.null, .obj []]) = false ∧
    isValidData (.arr [.null, .obj [("a", .numFinite 1)]]) = true ∧
    isValidData (.obj [("cluster", .obj [("nodes", .arr [.obj [("status", .obj [])]])])]) = false ∧
    isValidData (.obj [("a", .obj [("b", .numFinite 0)])]) = true ∧
    isValidData (.str "") = false ∧
    isValidData (.str "   ") = false ∧
    isValidData .numNonFinite = false := by
  refine ⟨?_, ?_, ?_, ?_, ?_, ?_, ?_, ?_, ?_, ?_⟩ <;>
    simp only [isValidData, anyValidData, anyValidDataValues, hasKeys] <;> decide

/-- C10. Booleans reach the `default: return true` branch of `isValidData`,
so every boolean - `false` included - counts as meaningful data, and an
export entry whose value is `false` is uploaded by `exportData` rather than
skipped as empty. -/
theorem isValidData_bool_uploaded (b : Bool) (name : String) :
    isValidData (.bool b) = true ∧
    exportDataUploads [(name, .bool b)] = [name] ∧
    exportDataSkipped [(name, .bool b)] = [] := by
  refine ⟨?_, ?_, ?_⟩ <;>
    simp [exportDataUploads, exportDataSkipped, isValidData, List.filter]

/-! ## Claim theorems: upload fan-out -/

/-- The join of branches that all fulfil fulfils with all their values. -/
theorem promiseAll_map_ok {α : Type} (l : List α) :
    promiseAll (l.map (fun a => (Except.ok a : Except String α))) = .ok l := by
  induction l with
  | nil => rfl
  | cons x xs ih => simp [promiseAll, ih]

/-- C7. `CloudUploadClientCollection.upload` dispatches exactly one
`uploadFile` call to every managed client (the settled-outcome list has one
entry per client, in order), and the overall call always fulfils once every
branch has settled - a rejecting client is caught and logged as
`Failed to upload to NAME - MESSAGE` and never rejects the join, as the
concrete three-target conjunct with a throwing middle target shows. -/
theorem collectionUpload_settles_every_target (clients : List UploadClient) (payload : String) :
    collectionUpload clients payload = .ok (clients.map (settleOne payload)) ∧
    (clients.map (settleOne payload)).length = clients.length ∧
    collectionUpload
        [⟨"A", fun _ => .ok ()⟩, ⟨"B", fun _ => .error "boom"⟩, ⟨"C", fun _ => .ok ()⟩] "p" =
      .ok [.fulfilled, .loggedFailure "Failed to upload to B - boom", .fulfilled] := by
  refine ⟨?_, List.length_map clients (settleOne payload), rfl⟩
  rw [collectionUpload]
  exact promiseAll_map_ok (clients.map (settleOne payload)) ▸ congrArg promiseAll
    (by rw [List.map_map]; rfl)

/-! ## Claim theorems: upload descriptor validation -/

/-- C8 counterexample. A descriptor supplying only `filePath` - with
`serviceLocation` absent - fails validation: the cited schema declares
`serviceLocation: z.enum(ServiceLocation)` as a required field, so the base
object parse rejects the input with a `Required` issue before the
`superRefine` short-circuit for `filePath` can run. The claim that
validation succeeds for any descriptor supplying `filePath`, regardless of
which other fields are absent, is therefore false. -/
theorem uploadOpts_filePath_alone_fails_counterexample :
    safeParseUploadOpts ⟨some "/x", none, none, none, none, none⟩ =
      .failure ["serviceLocation: Required"] := rfl

/-- C8 amended. Validation of the upload descriptor, performed before any
provider upload, fails with an issue referencing `siteName` for a descriptor
with `serviceLocation = "site"`, no `siteName` and no `filePath`; and it
succeeds for any descriptor that supplies a non-empty `filePath` together
with a valid `serviceLocation`, regardless of which of the remaining
optional fields (`siteName`, `serviceName`, `dataSourceName`, `filename`)
are present or absent. -/
theorem uploadOpts_validation (fp loc : String)
    (siteName serviceName dataSourceName filename : Option String)
    (hloc : loc = "site" ∨ loc = "global") (hfp : fp ≠ "") :
    (∃ issues, safeParseUploadOpts ⟨none, some "site", none, none, none, none⟩ =
        .failure issues ∧
      "siteName must be specified if not using absolute file pathing" ∈ issues) ∧
    safeParseUploadOpts ⟨some fp, some loc, siteName, serviceName, dataSourceName, filename⟩ =
      .success ⟨some fp, loc, siteName, serviceName, dataSourceName, filename⟩ := by
  constructor
  · exact ⟨["serviceName must be specified if not using absolute file pathing",
      "dataSourceName must be specified if not using absolute file pathing",
      "siteName must be specified if not using absolute file pathing"], rfl, by decide⟩
  · have htruthy : truthyStr (some fp) = true := by
      simp only [truthyStr, decide_eq_true_eq]
      exact hfp
    rw [safeParseUploadOpts, parseServiceLocation]
    simp only [if_pos hloc, refineIssues, htruthy, if_pos]

/-- Closed witness for `uploadOpts_validation`: descriptor with
`filePath = "/x"` and `serviceLocation = "global"`, everything else absent,
validates successfully, while the site-without-siteName descriptor fails
with the `siteName` issue. -/
theorem uploadOpts_validation_witness :
    (∃ issues, safeParseUploadOpts ⟨none, some "site", none, none, none, none⟩ =
        .failure issues ∧
      "siteName must be specified if not using absolute file pathing" ∈ issues) ∧
    safeParseUploadOpts ⟨some "/x", some "global", none, none, none, none⟩ =
      .success ⟨some "/x", "global", none, none, none, none⟩ :=
  uploadOpts_validation "/x" "global" none none none none (Or.inr rfl) (by decide)

/-! ## Claim theorems: generated filename format -/

/-- C9. Evaluation of the date formatter and generated filename at the
failing input 2024-03-05 10:20:30: the code emits `2024-03-05__10:20:30` -
the day-of-month once, followed by a double underscore - and not the
`YYYY-MM-DD_DD_HH:MM:SS` day-repeated pattern that the claim and the
function's own doc comment describe, which would be
`2024-03-05_05_10:20:30`. The filename wrapper is
`{serviceName}-{dataSourceName}-{timestamp}.json` as claimed. -/
theorem formatDate_double_underscore_not_day_twice :
    formatDate ⟨2024, 2, 5, 10, 20, 30⟩ = "2024-03-05__10:20:30" ∧
    aws3GeneratedFilename "svc" "ds" (formatDate ⟨2024, 2, 5, 10, 20, 30⟩) =
      "svc-ds-2024-03-05__10:20:30.json" ∧
    formatDate ⟨2024, 2, 5, 10, 20, 30⟩ ≠ "2024-03-05_05_10:20:30" := by
  refine ⟨by decide, by decide, by decide⟩

end CollectorCommon
